import Mathlib

/-!
Verification of the deprem-verileri earthquake pipeline.

Shallow embedding of the repository's normalization, merge, deduplication
and filtering code (src/kandilli.py, src/afad.py, src/utils.py,
src/data_handler.py, src/visualization.py, src/constants.py).

Modelling conventions:
* Python strings are `List Char`; Python floats are `ℚ` (all values met by
  this code are finite decimals); Unix millisecond timestamps are `ℤ`.
* Fallible Python code (try/except returning None) is `Option`.
* `datetime` values are represented by a civil tuple `Civil`; conversion
  between civil time and epoch seconds uses the standard proleptic-Gregorian
  day counting.  Naive-`datetime.timestamp()` is modelled with the system
  timezone at UTC (the conversion offset cancels in every property below that
  compares timestamps).
-/

namespace Deprem

/-- Whitespace test used by Python str.split() / str.strip() (the characters
occurring in this data). -/
def isSpace (c : Char) : Bool :=
  c = ' ' || c = '\t' || c = '\n' || c = '\r'

/-- Helper for `splitWs`: accumulates the current word (reversed). -/
def splitWsAux : List Char → List Char → List (List Char)
  | [], acc => if acc.isEmpty then [] else [acc.reverse]
  | c :: rest, acc =>
    if isSpace c then
      if acc.isEmpty then splitWsAux rest []
      else acc.reverse :: splitWsAux rest []
    else splitWsAux rest (c :: acc)

/-- Models Python str.split() with no argument: split on runs of whitespace,
dropping empty pieces. -/
def splitWs (l : List Char) : List (List Char) :=
  splitWsAux l []

/-- Helper for `splitOn`. -/
def splitOnAux (sep : Char) : List Char → List Char → List (List Char)
  | [], acc => [acc.reverse]
  | c :: rest, acc =>
    if c = sep then acc.reverse :: splitOnAux sep rest []
    else splitOnAux sep rest (c :: acc)

/-- Models Python str.split(sep) for a single-character separator: keeps empty
pieces. -/
def splitOn (sep : Char) (l : List Char) : List (List Char) :=
  splitOnAux sep l []

/-- Models Python str.strip() with no argument. -/
def trimChars (l : List Char) : List Char :=
  ((l.dropWhile isSpace).reverse.dropWhile isSpace).reverse

/-- Models Python str.startswith for a list pattern. -/
def startsWithChars : List Char → List Char → Bool
  | [], _ => true
  | _ :: _, [] => false
  | p :: ps, c :: cs => p = c && startsWithChars ps cs

/-- Models the Python substring test (pat in s). -/
def containsSub (pat : List Char) : List Char → Bool
  | [] => pat.isEmpty
  | c :: rest => startsWithChars pat (c :: rest) || containsSub pat rest

/-- Helper for `replaceSub`: fuel-driven scan (structural recursion so the
kernel can evaluate it; the fuel, initialized to the length of the string,
never runs out because each step consumes at least one character). -/
def replaceSubAux (pat rep : List Char) : ℕ → List Char → List Char
  | 0, l => l
  | _ + 1, [] => []
  | fuel + 1, c :: rest =>
    if startsWithChars pat (c :: rest) && !pat.isEmpty then
      rep ++ replaceSubAux pat rep fuel ((c :: rest).drop pat.length)
    else
      c :: replaceSubAux pat rep fuel rest

/-- Models Python str.replace(old, new) for a fixed non-empty pattern. -/
def replaceSub (pat rep : List Char) (l : List Char) : List Char :=
  replaceSubAux pat rep l.length l

/-- Models Python str.replace(c, d) for single characters. -/
def replaceChar (old new : Char) (l : List Char) : List Char :=
  l.map fun c => if c = old then new else c

/-- Models Python str.replace(c, "") for a single character (deletion). -/
def removeChar (old : Char) (l : List Char) : List Char :=
  l.filter fun c => c ≠ old

/-- Numeric value of a decimal digit string, most significant first (total;
callers check digit-ness separately). -/
def natFromDigits (l : List Char) : ℕ :=
  l.foldl (fun acc c => 10 * acc + (c.toNat - 48)) 0

/-- Models the all-decimal-digits test. -/
def allDigits (l : List Char) : Bool :=
  !l.isEmpty && l.all Char.isDigit

/-- Models Python int-like parsing of a field of at most maxLen digits, as
accepted by datetime.strptime directives (%Y, %m, %d, %H, %M, %S). -/
def parseField (maxLen : ℕ) (s : List Char) : Option ℕ :=
  if allDigits s && s.length ≤ maxLen then some (natFromDigits s) else none

/-- Addition of rationals computed through the smart constructor `mkRat`
(definitionally evaluable, unlike the irreducible library operation; proved
equal to it in `qadd_eq`). -/
def qadd (a b : ℚ) : ℚ :=
  mkRat (a.num * b.den + b.num * a.den) (a.den * b.den)

/-- Subtraction of rationals through `mkRat`; proved equal to the library
subtraction in `qsub_eq`. -/
def qsub (a b : ℚ) : ℚ :=
  mkRat (a.num * b.den - b.num * a.den) (a.den * b.den)

/-- Multiplication of rationals through `mkRat`; proved equal to the library
multiplication in `qmul_eq`. -/
def qmul (a b : ℚ) : ℚ :=
  mkRat (a.num * b.num) (a.den * b.den)

/-- Division of a rational by a natural number through `mkRat`; proved equal
to the library division in `qdivNat_eq`. -/
def qdivNat (a : ℚ) (n : ℕ) : ℚ :=
  mkRat a.num (a.den * n)

/-- Absolute value of a rational through `mkRat`; proved equal to the library
absolute value in `qabs_eq`. -/
def qabs (a : ℚ) : ℚ :=
  mkRat (a.num.natAbs : ℤ) a.den

/-- Models Python float() on the finite decimal notation occurring in the
feeds: optional sign, then digits with an optional decimal point ("3.2",
"-0.5", ".5", "12", "12.").  Anything else (for example the Kandilli
placeholder "-.-") fails, as float() raises ValueError there. -/
def parseFloat (s : List Char) : Option ℚ :=
  let signed : ℤ × List Char :=
    match s with
    | '-' :: r => (-1, r)
    | '+' :: r => (1, r)
    | r => (1, r)
  match splitOn '.' signed.2 with
  | [ip] =>
    if allDigits ip then some (mkRat (signed.1 * natFromDigits ip) 1) else none
  | [ip, fp] =>
    if ip.isEmpty && fp.isEmpty then none
    else if ip.all Char.isDigit && fp.all Char.isDigit then
      some (mkRat
        (signed.1 * (natFromDigits ip * 10 ^ fp.length + natFromDigits fp))
        (10 ^ fp.length))
    else none
  | _ => none

/-- Civil datetime tuple, the information content of a Python datetime at
second resolution. -/
structure Civil where
  year : ℤ
  month : ℕ
  day : ℕ
  hour : ℕ
  minute : ℕ
  second : ℕ
  deriving Repr, DecidableEq

/-- Proleptic-Gregorian leap-year test. -/
def isLeap (y : ℤ) : Bool :=
  (y % 4 = 0 && y % 100 ≠ 0) || y % 400 = 0

/-- Days in a month of the proleptic-Gregorian calendar. -/
def daysInMonth (y : ℤ) (m : ℕ) : ℕ :=
  if m = 2 then (if isLeap y then 29 else 28)
  else if m = 4 || m = 6 || m = 9 || m = 11 then 30
  else 31

/-- Validity check performed by the Python datetime constructor (which
strptime and fromisoformat call): calendar-valid date, in-range time, year
between MINYEAR = 1 and MAXYEAR = 9999. -/
def validCivil (c : Civil) : Bool :=
  1 ≤ c.year && c.year ≤ 9999 &&
  1 ≤ c.month && c.month ≤ 12 &&
  1 ≤ c.day && c.day ≤ daysInMonth c.year c.month &&
  c.hour < 24 && c.minute < 60 && c.second < 60

/-- Days from the Unix epoch to the civil date y-m-d (standard
days-from-civil computation on the proleptic-Gregorian calendar). -/
def daysFromCivil (y : ℤ) (m d : ℕ) : ℤ :=
  let y' : ℤ := if m ≤ 2 then y - 1 else y
  let era : ℤ := y'.fdiv 400
  let yoe : ℤ := y' - era * 400
  let mp : ℤ := if 2 < m then (m : ℤ) - 3 else (m : ℤ) + 9
  let doy : ℤ := (153 * mp + 2).fdiv 5 + (d : ℤ) - 1
  let doe : ℤ := yoe * 365 + yoe.fdiv 4 - yoe.fdiv 100 + doy
  era * 146097 + doe - 719468

/-- Unix epoch seconds of a civil datetime read as UTC. -/
def epochOfCivil (c : Civil) : ℤ :=
  daysFromCivil c.year c.month c.day * 86400 +
    (c.hour : ℤ) * 3600 + (c.minute : ℤ) * 60 + (c.second : ℤ)

/-- Civil datetime (UTC) of a Unix epoch second count (standard
civil-from-days computation, inverse of `daysFromCivil`). -/
def civilOfEpoch (t : ℤ) : Civil :=
  let days : ℤ := t.fdiv 86400
  let secs : ℕ := (t - days * 86400).toNat
  let z : ℤ := days + 719468
  let era : ℤ := z.fdiv 146097
  let doe : ℕ := (z - era * 146097).toNat
  let yoe : ℕ := (doe - doe / 1460 + doe / 36524 - doe / 146096) / 365
  let doy : ℕ := doe - (365 * yoe + yoe / 4 - yoe / 100)
  let mp : ℕ := (5 * doy + 2) / 153
  let d : ℕ := doy - (153 * mp + 2) / 5 + 1
  let m : ℕ := if mp < 10 then mp + 3 else mp - 9
  let y : ℤ := (yoe : ℤ) + era * 400 + (if m ≤ 2 then 1 else 0)
  ⟨y, m, d, secs / 3600, secs % 3600 / 60, secs % 60⟩

/-- Models datetime.strptime(date + "T" + time, "%Y-%m-%dT%H:%M:%S") on the
already-split date and time pieces: each directive takes 1..maxLen digits and
the datetime constructor validates the result. -/
def strptimeYmdHms (dateS timeS : List Char) : Option Civil :=
  match splitOn '-' dateS, splitOn ':' timeS with
  | [ys, ms, ds], [hs, mis, ss] => do
    let y ← parseField 4 ys
    let mo ← parseField 2 ms
    let d ← parseField 2 ds
    let h ← parseField 2 hs
    let mi ← parseField 2 mis
    let s ← parseField 2 ss
    let c : Civil := ⟨(y : ℤ), mo, d, h, mi, s⟩
    if validCivil c then some c else none
  | _, _ => none

/-- Models datetime.fromisoformat on the AFAD date strings
"YYYY-MM-DD[THH:MM:SS[.ffffff]][+00:00]" (after the source code's
replace of Z by +00:00).  The timezone suffix only tags the value as UTC and
fractional seconds are below the resolution used by any property here, so
both are stripped; a date-only string means midnight. -/
def fromisoformat (s : List Char) : Option Civil :=
  match splitOn 'T' s with
  | [dateS] => strptimeYmdHms dateS ['0', '0', ':', '0', '0', ':', '0', '0']
  | [dateS, timeS0] =>
    let timeS1 := (splitOn '+' timeS0).headD []
    let timeS := (splitOn '.' timeS1).headD []
    strptimeYmdHms dateS timeS
  | _ => none

/-- Per-type magnitude values kept in the "magnitude_details" mapping of the
normalized records (keys "md", "ml", "mw"; None is `none`). -/
structure MagnitudeDetails where
  md : Option ℚ
  ml : Option ℚ
  mw : Option ℚ
  deriving Repr, DecidableEq

/-- Number of non-null entries of a magnitude_details mapping. -/
def MagnitudeDetails.nonNullCount (d : MagnitudeDetails) : ℕ :=
  (if d.md.isSome then 1 else 0) + (if d.ml.isSome then 1 else 0) +
    (if d.mw.isSome then 1 else 0)

/-- Canonical normalized earthquake record, the dictionary shape produced by
_parse_kandilli_line and _standardize_afad_quake.  The date string of the
dictionary is represented by its civil-datetime content (strftime of the
datetime it was formatted from); the timestamp field is Unix milliseconds. -/
structure Event where
  eventID : Option (List Char)
  date : Civil
  latitude : ℚ
  longitude : ℚ
  depth : ℚ
  magnitude : ℚ
  magnitude_details : MagnitudeDetails
  magType : List Char
  location : Option (List Char)
  country : Option (List Char)
  province : Option (List Char)
  district : Option (List Char)
  neighborhood : Option (List Char)
  timestamp : ℤ
  quality : List Char
  source : List Char
  deriving Repr, DecidableEq

/-- Raw AFAD API record (one JSON object).  The API serves the numeric fields
as strings, which the code passes through float(); absent keys are `none`
(dict.get returns None).  isEventUpdate defaults to False when absent. -/
structure RawAfad where
  eventID : Option (List Char)
  date : Option (List Char)
  latitude : Option (List Char)
  longitude : Option (List Char)
  depth : Option (List Char)
  magnitude : Option (List Char)
  magType : Option (List Char)
  location : Option (List Char)
  country : Option (List Char)
  province : Option (List Char)
  district : Option (List Char)
  neighborhood : Option (List Char)
  isEventUpdate : Bool
  deriving Repr, DecidableEq

def strDashDash : List Char := ['-', '.', '-']
def strML : List Char := ['M', 'L']
def strMW : List Char := ['M', 'W']
def strMD : List Char := ['M', 'D']
def strILKSELascii : List Char := ['I', 'L', 'K', 'S', 'E', 'L']
def strILKSEL : List Char := ['İ', 'L', 'K', 'S', 'E', 'L']
def strREVIZE : List Char := ['R', 'E', 'V', 'İ', 'Z', 'E']
def strKandilli : List Char := ['K', 'a', 'n', 'd', 'i', 'l', 'l', 'i']
def strKandilliTag : List Char := ['k', 'a', 'n', 'd', 'i', 'l', 'l', 'i', '_']
def strAFAD : List Char := ['A', 'F', 'A', 'D']
def strSitemizde : List Char := ['S', 'i', 't', 'e', 'm', 'i', 'z', 'd', 'e']
def strPlus0000 : List Char := ['+', '0', '0', ':', '0', '0']

/-- Models the per-column magnitude conversion of _parse_kandilli_line:
float(s) if s != "-.-" else None, where a float() failure aborts the whole
record (outer `none`) and the placeholder gives a null magnitude (inner
`none`). -/
def parseMagColumn (s : List Char) : Option (Option ℚ) :=
  if s = strDashDash then some none else (parseFloat s).map some

/-- Models _parse_kandilli_line (src/kandilli.py): parse one whitespace-split
Kandilli line into a normalized record; any failed required conversion (or
fewer than 9 fields) yields `none`, mirroring the try/except that returns
None. -/
def parseKandilliLine (line : List Char) : Option Event :=
  let parts := splitWs line
  if 9 ≤ parts.length then do
    let date_str := parts.getD 0 []
    let time_str := parts.getD 1 []
    let lat ← parseFloat (parts.getD 2 [])
    let lon ← parseFloat (parts.getD 3 [])
    let depth ← parseFloat (parts.getD 4 [])
    let md_str := parts.getD 5 []
    let ml_str := parts.getD 6 []
    let mw_str := parts.getD 7 []
    let md ← parseMagColumn md_str
    let ml ← parseMagColumn ml_str
    let mw ← parseMagColumn mw_str
    let magnitude_value : ℚ :=
      (ml.orElse fun _ => (mw.orElse fun _ => md)).getD 0
    let location_end_index := parts.length - 1
    let location := List.intercalate [' ']
      ((parts.drop 8).take (location_end_index - 8))
    let quality := replaceSub strILKSELascii strILKSEL
      (parts.getD location_end_index [])
    let ts ← strptimeYmdHms (replaceChar '.' '-' date_str) time_str
    some {
      eventID := some (strKandilliTag ++ removeChar '.' date_str ++
        ['_'] ++ removeChar ':' time_str)
      date := ts
      latitude := lat
      longitude := lon
      depth := depth
      magnitude := magnitude_value
      magnitude_details := ⟨md, ml, mw⟩
      magType := if ml.isSome then strML
                 else if mw.isSome then strMW else strMD
      location := some location
      country := none
      province := none
      district := none
      neighborhood := none
      timestamp := epochOfCivil ts * 1000
      quality := quality
      source := strKandilli }
  else none

/-- Per-line processing of parse_kandilli_data (src/kandilli.py lines 49-56):
strip the line, skip blank / separator / footer lines, then parse it. -/
def processKandilliLine (rawLine : List Char) : Option Event :=
  let line := trimChars rawLine
  if line.isEmpty || startsWithChars ['-', '-', '-'] line ||
      containsSub strSitemizde line then
    none
  else
    parseKandilliLine line

/-- Stable descending sort by the timestamp field, modelling
list.sort(key=lambda x: x.get("timestamp", 0), reverse=True). -/
def sortByTimestampDesc (l : List Event) : List Event :=
  l.mergeSort fun a b => decide (b.timestamp ≤ a.timestamp)

/-- Models parse_kandilli_data (src/kandilli.py) from the list of data lines
following the header separator: per-line parsing with per-record isolation,
then the newest-first sort. -/
def parse_kandilli_data (lines : List (List Char)) : List Event :=
  sortByTimestampDesc (lines.filterMap processKandilliLine)

/-- Models the magnitude extraction of _standardize_afad_quake:
float(quake.get("magnitude", 0)) — a missing key defaults to 0, a present
but unparseable value aborts the record. -/
def afadMagValue (m : Option (List Char)) : Option ℚ :=
  match m with
  | none => some 0
  | some s => parseFloat s

/-- Models _standardize_afad_quake (src/afad.py): normalize one raw AFAD
record; any failed required conversion yields `none`, mirroring the
try/except that returns None.  AFAD reports UTC, and the code adds
timedelta(hours=3) to convert to Turkey local time before formatting the
date string and taking the millisecond timestamp. -/
def afadStandardizeQuake (quake : RawAfad) : Option Event := do
  let dateStr ← quake.date
  let date_obj ← fromisoformat (replaceSub ['Z'] strPlus0000 dateStr)
  let localEpoch := epochOfCivil date_obj + 3 * 3600
  let mag_type := quake.magType.getD strML
  let mag_value ← afadMagValue quake.magnitude
  let lat ← quake.latitude.bind parseFloat
  let lon ← quake.longitude.bind parseFloat
  let depth ← quake.depth.bind parseFloat
  some {
    eventID := quake.eventID
    date := civilOfEpoch localEpoch
    latitude := lat
    longitude := lon
    depth := depth
    magnitude := mag_value
    magnitude_details :=
      ⟨if mag_type = strMD then some mag_value else none,
       if mag_type = strML then some mag_value else none,
       if mag_type = strMW then some mag_value else none⟩
    magType := mag_type
    location := quake.location
    country := quake.country
    province := quake.province
    district := quake.district
    neighborhood := quake.neighborhood
    timestamp := localEpoch * 1000
    quality := if quake.isEventUpdate then strREVIZE else strILKSEL
    source := strAFAD }

/-- Models standardize_afad_data (src/afad.py): per-record standardization
with per-record isolation, then the newest-first sort. -/
def standardize_afad_data (afad_data : List RawAfad) : List Event :=
  sortByTimestampDesc (afad_data.filterMap afadStandardizeQuake)

/-- The fields of the merged earthquake dictionaries that
deduplicate_earthquakes (src/utils.py) reads.  `magnitude` is `none` when the
value is missing/NaN in the DataFrame (the pd.isna branch); the remaining
dictionary fields ride along unchanged and never influence the scan, with
`source` kept here so that source-independence is expressible. -/
structure Quake where
  timestamp : ℤ
  latitude : ℚ
  longitude : ℚ
  magnitude : Option ℚ
  source : List Char
  deriving Repr, DecidableEq

/-- The matching predicate of deduplicate_earthquakes (src/utils.py lines
36-49): time difference (milliseconds / 1000) strictly under 60 s, squared
degree-space distance strictly under 0.1² (the code compares the square root
against 0.1; both sides are non-negative), magnitude difference strictly
under 0.5, with a missing magnitude on either side giving mag_diff = inf,
which fails the comparison. -/
def isDuplicate (row other : Quake) : Bool :=
  let time_diff : ℚ :=
    qdivNat (qabs (qsub (row.timestamp : ℚ) (other.timestamp : ℚ))) 1000
  let distanceSq : ℚ :=
    qadd (qmul (qsub row.latitude other.latitude)
               (qsub row.latitude other.latitude))
         (qmul (qsub row.longitude other.longitude)
               (qsub row.longitude other.longitude))
  let mag_ok : Bool :=
    match row.magnitude, other.magnitude with
    | some a, some b => decide (qabs (qsub a b) < mkRat 1 2)
    | _, _ => false
  decide (time_diff < 60) && decide (distanceSq < mkRat 1 100) && mag_ok

/-- Inner scan of deduplicate_earthquakes: starting from representative
`row` (at DataFrame index `i`), walk the whole frame and mark every
not-yet-consumed other index matching `row` as consumed. -/
def innerScan (row : Quake) (i : ℕ) : List (ℕ × Quake) → List ℕ → List ℕ
  | [], used => used
  | (j, other) :: rest, used =>
    if i = j ∨ j ∈ used then innerScan row i rest used
    else if isDuplicate row other then innerScan row i rest (j :: used)
    else innerScan row i rest used

/-- Outer scan of deduplicate_earthquakes: emit each not-yet-consumed row as
a representative and run the inner scan over the whole frame `df`. -/
def outerLoop (df : List (ℕ × Quake)) : List (ℕ × Quake) → List ℕ → List Quake
  | [], _ => []
  | (i, row) :: rest, used =>
    if i ∈ used then outerLoop df rest used
    else row :: outerLoop df rest (innerScan row i df used)

/-- Models deduplicate_earthquakes (src/utils.py): first-seen-wins scan over
the merged list with a consumed-index set. -/
def deduplicate_earthquakes (earthquakes : List Quake) : List Quake :=
  if earthquakes.isEmpty then []
  else outerLoop earthquakes.enum earthquakes.enum []

/-- The Marmara bounding box of constants.py (39.5 ≤ lat ≤ 41.5,
26.0 ≤ lon ≤ 31.0), numerals written through `mkRat` so the test
evaluates. -/
def MARMARA_BOUNDS_min_lat : ℚ := mkRat 79 2
def MARMARA_BOUNDS_max_lat : ℚ := mkRat 83 2
def MARMARA_BOUNDS_min_lon : ℚ := 26
def MARMARA_BOUNDS_max_lon : ℚ := 31

/-- Models is_in_marmara_region (src/visualization.py): chained closed
inequalities against MARMARA_BOUNDS. -/
def is_in_marmara_region (lat lon : ℚ) : Bool :=
  decide (MARMARA_BOUNDS_min_lat ≤ lat) && decide (lat ≤ MARMARA_BOUNDS_max_lat) &&
  decide (MARMARA_BOUNDS_min_lon ≤ lon) && decide (lon ≤ MARMARA_BOUNDS_max_lon)

/-- The region argument of filter_data: "Tüm Türkiye" (no restriction) or
"Marmara Bölgesi". -/
inductive Region where
  | tumTurkiye
  | marmaraBolgesi
  deriving Repr, DecidableEq

/-- Models filter_data (src/data_handler.py): keep rows with magnitude ≥
min_magnitude, then, only when the Marmara region is selected, keep rows
inside the Marmara bounding box. -/
def filter_data (df : List Event) (min_magnitude : ℚ) (region : Region) :
    List Event :=
  let filtered_df := df.filter fun e => decide (min_magnitude ≤ e.magnitude)
  match region with
  | .marmaraBolgesi =>
    filtered_df.filter fun e => is_in_marmara_region e.latitude e.longitude
  | .tumTurkiye => filtered_df

/-! Concrete records used by witnesses and counterexamples below. -/

/-- Placeholder record used as the default of Option.getD when naming the
parse result of a concrete line. -/
def dummyEvent : Event :=
  ⟨none, ⟨0, 0, 0, 0, 0, 0⟩, 0, 0, 0, 0, ⟨none, none, none⟩, [], none, none,
    none, none, none, 0, [], []⟩

/-- Event at time 0, (40, 29), magnitude 3.2, from source X. -/
def exA : Quake := ⟨0, 40, 29, some (mkRat 16 5), ['X']⟩

/-- Event 30 s later, 0.05° north, magnitude 3.4, from source Y. -/
def exBnear : Quake := ⟨30000, mkRat 801 20, 29, some (mkRat 17 5), ['Y']⟩

/-- Same place and time as exBnear but magnitude 4.0. -/
def exBfar : Quake := ⟨30000, mkRat 801 20, 29, some 4, ['Y']⟩

/-- Chain triple: cA matches cB (0.4 apart), cB matches cC (0.4 apart),
cA does not match cC (0.8 apart). -/
def cA : Quake := ⟨0, 40, 29, some 3, ['X']⟩

def cB : Quake := ⟨0, 40, 29, some (mkRat 17 5), ['Y']⟩

def cC : Quake := ⟨0, 40, 29, some (mkRat 19 5), ['Z']⟩

/-- A well-formed Kandilli line. -/
def kGoodLine : List Char :=
  "2024.01.05 11:13:02  40.7710   29.1230       5.0      -.-  2.1  -.-   YALOVA ACIKLARI-MARMARA DENIZI             Ilksel".toList

/-- The normalized record of kGoodLine. -/
def evKGood : Event := (parseKandilliLine kGoodLine).getD dummyEvent

/-- A second well-formed Kandilli line. -/
def kGoodLine2 : List Char :=
  "2024.01.05 10:00:00  39.2000   28.1000      10.2      -.-  -.-  4.5   AKHISAR (MANISA)             REVIZE01".toList

/-- A Kandilli line whose latitude field is not parseable: the record is
dropped. -/
def kBadLine : List Char :=
  "2024.01.05 11:13:02  xx.yyyy   29.1230       5.0      -.-  2.1  -.-   YALOVA ACIKLARI-MARMARA DENIZI             Ilksel".toList

/-- A Kandilli line whose ML magnitude column is present (not the
placeholder) but not convertible by float(): the record is dropped. -/
def kBadMagLine : List Char :=
  "2024.01.05 11:13:02  40.7710   29.1230       5.0      -.-  ab  -.-   YALOVA ACIKLARI-MARMARA DENIZI             Ilksel".toList

/-- A Kandilli line with no parseable magnitude value at all (all three
magnitude columns are the placeholder). -/
def kNoMagLine : List Char :=
  "2024.01.05 11:13:02  40.7710   29.1230       5.0      -.-  -.-  -.-   YALOVA ACIKLARI-MARMARA DENIZI             Ilksel".toList

/-- A Kandilli line reporting both an ML and an MW magnitude. -/
def kTwoMagLine : List Char :=
  "2024.01.05 11:13:02  40.7710   29.1230       5.0      -.-  4.1  4.3   YALOVA ACIKLARI-MARMARA DENIZI             Ilksel".toList

/-- A well-formed AFAD record (UTC date 2024-01-05T08:13:02Z). -/
def rawAfadGood : RawAfad :=
  ⟨some "494362".toList, some "2024-01-05T08:13:02Z".toList,
    some "40.77".toList, some "29.12".toList, some "5.0".toList,
    some "2.1".toList, some "ML".toList, some "Yalova".toList,
    some "Türkiye".toList, some "Yalova".toList, none, none, false⟩

/-- The normalized record of rawAfadGood. -/
def evAfadGood : Event := (afadStandardizeQuake rawAfadGood).getD dummyEvent

/-- A second well-formed AFAD record. -/
def rawAfadGood2 : RawAfad :=
  ⟨some "494363".toList, some "2024-01-05T06:00:00Z".toList,
    some "39.20".toList, some "28.10".toList, some "10.2".toList,
    some "4.5".toList, some "MW".toList, some "Akhisar".toList,
    none, none, none, none, true⟩

/-- An AFAD record whose date is not parseable: the record is dropped. -/
def rawAfadBad : RawAfad :=
  ⟨none, some "not-a-date".toList, some "40.77".toList, some "29.12".toList,
    some "5.0".toList, some "2.1".toList, none, none, none, none, none, none,
    false⟩

/-- An AFAD record whose magnitude key is present but not convertible by
float(): the record is dropped. -/
def rawAfadBadMag : RawAfad :=
  ⟨some "494365".toList, some "2024-01-05T08:13:02Z".toList,
    some "40.77".toList, some "29.12".toList, some "5.0".toList,
    some "x.y".toList, none, none, none, none, none, none, false⟩

/-- An AFAD record with no magnitude key at all: standardized with the
default magnitude 0. -/
def rawAfadNoMag : RawAfad :=
  ⟨some "494364".toList, some "2024-01-05T08:13:02Z".toList,
    some "40.77".toList, some "29.12".toList, some "5.0".toList,
    none, none, none, none, none, none, none, false⟩

/-! Agreement of the evaluable rational operations with the library ones. -/

theorem qadd_eq (a b : ℚ) : qadd a b = a + b := by
  have ha : ((a.den : ℚ)) ≠ 0 := Nat.cast_ne_zero.mpr a.den_nz
  have hb : ((b.den : ℚ)) ≠ 0 := Nat.cast_ne_zero.mpr b.den_nz
  rw [qadd, Rat.mkRat_eq_div]
  conv_rhs => rw [← Rat.num_div_den a, ← Rat.num_div_den b]
  rw [div_add_div _ _ ha hb]
  push_cast
  ring_nf

theorem qsub_eq (a b : ℚ) : qsub a b = a - b := by
  have ha : ((a.den : ℚ)) ≠ 0 := Nat.cast_ne_zero.mpr a.den_nz
  have hb : ((b.den : ℚ)) ≠ 0 := Nat.cast_ne_zero.mpr b.den_nz
  rw [qsub, Rat.mkRat_eq_div]
  conv_rhs => rw [← Rat.num_div_den a, ← Rat.num_div_den b]
  rw [div_sub_div _ _ ha hb]
  push_cast
  ring_nf

theorem qmul_eq (a b : ℚ) : qmul a b = a * b := by
  rw [qmul, Rat.mkRat_eq_div]
  conv_rhs => rw [← Rat.num_div_den a, ← Rat.num_div_den b]
  rw [div_mul_div_comm]
  push_cast
  ring_nf

theorem qdivNat_eq (a : ℚ) (n : ℕ) : qdivNat a n = a / (n : ℚ) := by
  rw [qdivNat, Rat.mkRat_eq_div]
  conv_rhs => rw [← Rat.num_div_den a]
  rw [div_div]
  push_cast
  ring_nf

theorem qabs_eq (a : ℚ) : qabs a = |a| := by
  rw [qabs, Rat.mkRat_eq_div]
  conv_rhs => rw [← Rat.num_div_den a]
  rw [abs_div]
  congr 1
  · push_cast [Int.cast_natAbs]
    rfl
  · rw [abs_of_nonneg (by positivity)]

/-- Characterization of the matching predicate in terms of the library
rational operations. -/
theorem isDuplicate_iff (A B : Quake) :
    isDuplicate A B = true ↔
      (|(A.timestamp : ℚ) - (B.timestamp : ℚ)| / 1000 < 60 ∧
       (A.latitude - B.latitude) ^ 2 + (A.longitude - B.longitude) ^ 2 <
         1 / 100 ∧
       ∃ ma mb, A.magnitude = some ma ∧ B.magnitude = some mb ∧
         |ma - mb| < 1 / 2) := by
  have h2 : (mkRat 1 100 : ℚ) = 1 / 100 := by rw [Rat.mkRat_eq_div]; norm_num
  have h3 : (mkRat 1 2 : ℚ) = 1 / 2 := by rw [Rat.mkRat_eq_div]; norm_num
  unfold isDuplicate
  cases hA : A.magnitude <;> cases hB : B.magnitude <;>
    simp [qadd_eq, qsub_eq, qmul_eq, qdivNat_eq, qabs_eq, h2, h3, pow_two,
      and_assoc]

/-- The matching predicate is symmetric. -/
theorem isDuplicate_comm (A B : Quake) : isDuplicate A B = isDuplicate B A := by
  have h : isDuplicate A B = true ↔ isDuplicate B A = true := by
    rw [isDuplicate_iff, isDuplicate_iff]
    constructor
    · rintro ⟨h1, h2, ma, mb, hma, hmb, h3⟩
      refine ⟨by rwa [abs_sub_comm], ?_, mb, ma, hmb, hma,
        by rwa [abs_sub_comm]⟩
      calc (B.latitude - A.latitude) ^ 2 + (B.longitude - A.longitude) ^ 2
          = (A.latitude - B.latitude) ^ 2 + (A.longitude - B.longitude) ^ 2 :=
            by ring
        _ < 1 / 100 := h2
    · rintro ⟨h1, h2, mb, ma, hmb, hma, h3⟩
      refine ⟨by rwa [abs_sub_comm], ?_, ma, mb, hma, hmb,
        by rwa [abs_sub_comm]⟩
      calc (A.latitude - B.latitude) ^ 2 + (A.longitude - B.longitude) ^ 2
          = (B.latitude - A.latitude) ^ 2 + (B.longitude - A.longitude) ^ 2 :=
            by ring
        _ < 1 / 100 := h2
  cases hab : isDuplicate A B <;> cases hba : isDuplicate B A <;>
    simp_all

/-- The inner scan only adds indices to the consumed set. -/
theorem innerScan_subset (row : Quake) (i : ℕ) (pairs : List (ℕ × Quake)) :
    ∀ used : List ℕ, used ⊆ innerScan row i pairs used := by
  induction pairs with
  | nil => intro used; simp [innerScan]
  | cons p rest ih =>
    intro used
    obtain ⟨j, other⟩ := p
    rw [innerScan]
    split
    · exact ih used
    · split
      · exact (List.subset_cons_self j used).trans (ih (j :: used))
      · exact ih used

/-- Completeness of the inner scan: every index of the frame other than the
representative's own, whose record matches the representative, ends up
consumed. -/
theorem mem_innerScan (row : Quake) (i : ℕ) (pairs : List (ℕ × Quake)) :
    ∀ (used : List ℕ) (j : ℕ) (other : Quake), (j, other) ∈ pairs → i ≠ j →
      isDuplicate row other = true → j ∈ innerScan row i pairs used := by
  induction pairs with
  | nil => intro used j other h; simp at h
  | cons p rest ih =>
    intro used j other hmem hne hdup
    obtain ⟨j', o'⟩ := p
    rw [innerScan]
    rcases List.mem_cons.mp hmem with heq | htail
    · obtain ⟨rfl, rfl⟩ := Prod.mk.injEq .. ▸ heq
      split
      · rename_i hcond
        exact innerScan_subset row i rest used (hcond.resolve_left hne)
      · exact innerScan_subset row i rest _ (List.mem_cons_self j used)
    · split
      · exact ih used j other htail hne hdup
      · split
        · exact ih _ j other htail hne hdup
        · exact ih _ j other htail hne hdup

/-- Inversion of the outer loop: every emitted representative appears in the
remaining pair list at an index that was not yet consumed. -/
theorem mem_outerLoop (df : List (ℕ × Quake)) (pairs : List (ℕ × Quake)) :
    ∀ (used : List ℕ) (b : Quake), b ∈ outerLoop df pairs used →
      ∃ j, (j, b) ∈ pairs ∧ j ∉ used := by
  induction pairs with
  | nil => intro used b h; simp [outerLoop] at h
  | cons p rest ih =>
    intro used b h
    obtain ⟨i, row⟩ := p
    rw [outerLoop] at h
    split at h
    · obtain ⟨j, hj, hju⟩ := ih used b h
      exact ⟨j, List.mem_cons_of_mem _ hj, hju⟩
    · rename_i hi
      rcases List.mem_cons.mp h with rfl | htail
      · exact ⟨i, List.mem_cons_self _ _, hi⟩
      · obtain ⟨j, hj, hju⟩ := ih _ b htail
        exact ⟨j, List.mem_cons_of_mem _ hj,
          fun hmem => hju (innerScan_subset row i df used hmem)⟩

/-- The outer loop emits a subsequence of the records it walks. -/
theorem outerLoop_sublist (df : List (ℕ × Quake)) (pairs : List (ℕ × Quake)) :
    ∀ used : List ℕ, List.Sublist (outerLoop df pairs used) (pairs.map Prod.snd) := by
  induction pairs with
  | nil => intro used; simp [outerLoop]
  | cons p rest ih =>
    intro used
    obtain ⟨i, row⟩ := p
    rw [outerLoop]
    split
    · exact (ih used).trans (List.sublist_cons_self _ _)
    · exact List.Sublist.cons₂ _ (ih _)

/-- No two distinct representatives emitted by the outer loop match each
other: when the earlier one was processed its inner scan walked the whole
frame, so a matching later record would have been consumed. -/
theorem outerLoop_pairwise (df : List (ℕ × Quake))
    (hdf : (df.map Prod.fst).Nodup) (pairs : List (ℕ × Quake)) :
    ∀ used : List ℕ, List.Sublist pairs df →
      (outerLoop df pairs used).Pairwise fun a b => isDuplicate a b = false := by
  induction pairs with
  | nil => intro used _; simp [outerLoop]
  | cons p rest ih =>
    intro used hsub
    obtain ⟨i, row⟩ := p
    have hrest : List.Sublist rest df := (List.sublist_cons_self _ _).trans hsub
    rw [outerLoop]
    split
    · exact ih used hrest
    · refine List.pairwise_cons.mpr ⟨?_, ih _ hrest⟩
      intro b hb
      obtain ⟨j, hjmem, hjused⟩ := mem_outerLoop df rest _ b hb
      have hjdf : (j, b) ∈ df := hsub.subset (List.mem_cons_of_mem _ hjmem)
      have hne : i ≠ j := by
        have hnodup : (((i, row) :: rest).map Prod.fst).Nodup :=
          (hsub.map Prod.fst).nodup hdf
        have hnotin : i ∉ rest.map Prod.fst :=
          (List.nodup_cons.mp hnodup).1
        intro hij
        exact hnotin (hij ▸ List.mem_map.mpr ⟨(j, b), hjmem, rfl⟩)
      by_contra hdup
      rw [Bool.not_eq_false] at hdup
      exact hjused (mem_innerScan row i df used j b hjdf hne hdup)

/-- Inversion of the Kandilli line parser: a successfully parsed line has at
least 9 whitespace-separated fields, parseable coordinates, depth and
datetime, and the produced record is built exactly from those values. -/
theorem parseKandilliLine_inv {line : List Char} {e : Event}
    (h : parseKandilliLine line = some e) :
    ∃ lat lon depth md ml mw ts,
      9 ≤ (splitWs line).length ∧
      parseFloat ((splitWs line).getD 2 []) = some lat ∧
      parseFloat ((splitWs line).getD 3 []) = some lon ∧
      parseFloat ((splitWs line).getD 4 []) = some depth ∧
      parseMagColumn ((splitWs line).getD 5 []) = some md ∧
      parseMagColumn ((splitWs line).getD 6 []) = some ml ∧
      parseMagColumn ((splitWs line).getD 7 []) = some mw ∧
      strptimeYmdHms (replaceChar '.' '-' ((splitWs line).getD 0 []))
        ((splitWs line).getD 1 []) = some ts ∧
      e = { eventID := some (strKandilliTag ++
              removeChar '.' ((splitWs line).getD 0 []) ++ ['_'] ++
              removeChar ':' ((splitWs line).getD 1 []))
            date := ts
            latitude := lat
            longitude := lon
            depth := depth
            magnitude := ((ml.orElse fun _ => (mw.orElse fun _ => md)).getD 0)
            magnitude_details := ⟨md, ml, mw⟩
            magType := if ml.isSome then strML
                       else if mw.isSome then strMW else strMD
            location := some (List.intercalate [' ']
              (((splitWs line).drop 8).take ((splitWs line).length - 1 - 8)))
            country := none
            province := none
            district := none
            neighborhood := none
            timestamp := epochOfCivil ts * 1000
            quality := replaceSub strILKSELascii strILKSEL
              ((splitWs line).getD ((splitWs line).length - 1) [])
            source := strKandilli } := by
  rw [parseKandilliLine] at h
  split at h
  · rename_i h9
    simp only [Option.bind_eq_some, Option.some.injEq, bind, pure] at h
    obtain ⟨lat, hlat, lon, hlon, depth, hdepth, md, hmd, ml, hml, mw, hmw,
      ts, hts, he⟩ := h
    exact ⟨lat, lon, depth, md, ml, mw, ts, h9, hlat, hlon, hdepth, hmd,
      hml, hmw, hts, he.symm⟩
  · exact absurd h (by simp)

/-- Inversion of the AFAD standardizer: a successfully standardized record
has a present, parseable date, parseable coordinates and depth, a magnitude
that is either absent (defaulted to 0) or parseable, and the produced record
is built exactly from those values. -/
theorem afadStandardizeQuake_inv {quake : RawAfad} {e : Event}
    (h : afadStandardizeQuake quake = some e) :
    ∃ ds c magv lat lon depth,
      quake.date = some ds ∧
      fromisoformat (replaceSub ['Z'] strPlus0000 ds) = some c ∧
      afadMagValue quake.magnitude = some magv ∧
      (∃ s, quake.latitude = some s ∧ parseFloat s = some lat) ∧
      (∃ s, quake.longitude = some s ∧ parseFloat s = some lon) ∧
      (∃ s, quake.depth = some s ∧ parseFloat s = some depth) ∧
      e = { eventID := quake.eventID
            date := civilOfEpoch (epochOfCivil c + 3 * 3600)
            latitude := lat
            longitude := lon
            depth := depth
            magnitude := magv
            magnitude_details :=
              ⟨if quake.magType.getD strML = strMD then some magv else none,
               if quake.magType.getD strML = strML then some magv else none,
               if quake.magType.getD strML = strMW then some magv else none⟩
            magType := quake.magType.getD strML
            location := quake.location
            country := quake.country
            province := quake.province
            district := quake.district
            neighborhood := quake.neighborhood
            timestamp := (epochOfCivil c + 3 * 3600) * 1000
            quality := if quake.isEventUpdate then strREVIZE else strILKSEL
            source := strAFAD } := by
  rw [afadStandardizeQuake] at h
  simp only [Option.bind_eq_some, Option.some.injEq, bind, pure] at h
  obtain ⟨ds, hds, c, hc, magv, hmagv, lat, hlat, lon, hlon, depth, hdepth,
    he⟩ := h
  exact ⟨ds, c, magv, lat, lon, depth, hds, hc, hmagv, hlat, hlon, hdepth,
    he.symm⟩

/-- C1: the Duplicate Resolver treats two events as the same physical event
iff all three hold: timestamps differ by strictly less than 60 seconds,
Euclidean distance in degree-space is strictly less than 0.1, and both
magnitudes are available and differ by strictly less than 0.5 (a missing
magnitude fails closed).  In particular, events 30 s and 0.05° apart with
magnitudes 3.2 and 3.4 collapse to one representative, while the same pair
with magnitudes 3.2 and 4.0 yields two. -/
theorem C1_matching_predicate :
    (∀ A B : Quake, isDuplicate A B = true ↔
      (|(A.timestamp : ℚ) - (B.timestamp : ℚ)| / 1000 < 60 ∧
       Real.sqrt (((A.latitude - B.latitude : ℚ) : ℝ) ^ 2 +
         ((A.longitude - B.longitude : ℚ) : ℝ) ^ 2) < 1 / 10 ∧
       ∃ ma mb, A.magnitude = some ma ∧ B.magnitude = some mb ∧
         |ma - mb| < 1 / 2)) ∧
    deduplicate_earthquakes [exA, exBnear] = [exA] ∧
    deduplicate_earthquakes [exA, exBfar] = [exA, exBfar] := by
  refine ⟨fun A B => ?_, by decide, by decide⟩
  rw [isDuplicate_iff]
  have hsq : ((1 : ℝ) / 10) ^ 2 = ((1 / 100 : ℚ) : ℝ) := by norm_num
  constructor
  · rintro ⟨h1, h2, h3⟩
    refine ⟨h1, ?_, h3⟩
    rw [Real.sqrt_lt' (by norm_num : (0 : ℝ) < 1 / 10), hsq]
    exact_mod_cast h2
  · rintro ⟨h1, h2, h3⟩
    refine ⟨h1, ?_, h3⟩
    rw [Real.sqrt_lt' (by norm_num : (0 : ℝ) < 1 / 10), hsq] at h2
    exact_mod_cast h2

/-- C3: for a matching pair in merge order [A, B], the resolver emits exactly
[A]: first-seen-wins in merged order, with no condition on the events'
sources, quality or recency. -/
theorem C3_first_seen_wins (A B : Quake) (h : isDuplicate A B = true) :
    deduplicate_earthquakes [A, B] = [A] := by
  simp [deduplicate_earthquakes, outerLoop, innerScan, List.enum,
    List.enumFrom, h]

/-- Witness for C3: a concrete matching pair from two different sources. -/
theorem C3_first_seen_wins_witness :
    isDuplicate exA exBnear = true ∧
      deduplicate_earthquakes [exA, exBnear] = [exA] :=
  ⟨by decide, C3_first_seen_wins exA exBnear (by decide)⟩

/-- C2 as stated fails on the code: a concrete chain triple with A matching
B, B matching C and A not matching C, where the resolver emits the two
representatives [A, C] — not the single class [A] the claim asserts,
because consumed B never runs its own inner scan, so C is never absorbed. -/
theorem C2_chain_counterexample :
    isDuplicate cA cB = true ∧ isDuplicate cB cC = true ∧
    isDuplicate cA cC = false ∧
    deduplicate_earthquakes [cA, cB, cC] ≠ [cA] ∧
    deduplicate_earthquakes [cA, cB, cC] = [cA, cC] := by
  decide

/-- C2 (amended): for every ordered triple A, B, C where A matches B, B
matches C and A does not match C, the resolver's output on [A, B, C] is
exactly [A, C]: B is absorbed into A's class, while C — tested only against
the kept representatives, never against the consumed B — is emitted as its
own representative. -/
theorem C2_chain_absorption (A B C : Quake) (hAB : isDuplicate A B = true)
    (hBC : isDuplicate B C = true) (hAC : isDuplicate A C = false) :
    deduplicate_earthquakes [A, B, C] = [A, C] := by
  have hCA : isDuplicate C A = false := by
    rw [← isDuplicate_comm]; exact hAC
  simp [deduplicate_earthquakes, outerLoop, innerScan, List.enum,
    List.enumFrom, hAB, hAC, hCA]

/-- Witness for C2 (amended) at the concrete chain triple. -/
theorem C2_chain_absorption_witness :
    deduplicate_earthquakes [cA, cB, cC] = [cA, cC] :=
  C2_chain_absorption cA cB cC (by decide) (by decide) (by decide)

/-- C9: the resolver's output is a subsequence of its input — every emitted
representative is an input element, unmodified, and representatives keep the
input's relative order (no re-sorting, no transformation). -/
theorem C9_output_subsequence (l : List Quake) :
    List.Sublist (deduplicate_earthquakes l) l := by
  rw [deduplicate_earthquakes]
  split
  · simp
  · have h := outerLoop_sublist l.enum l.enum []
    rwa [List.enum_map_snd] at h

/-- C10: any two distinct representatives in the resolver's output fail the
matching predicate in both directions — the output never contains a pair of
events simultaneously within 60 seconds, 0.1 degrees and 0.5 magnitude of
each other. -/
theorem C10_representatives_nonmatching (l : List Quake) :
    (deduplicate_earthquakes l).Pairwise
      fun a b => isDuplicate a b = false ∧ isDuplicate b a = false := by
  rw [deduplicate_earthquakes]
  split
  · simp
  · have hnodup : (l.enum.map Prod.fst).Nodup := by
      rw [List.enum_map_fst]; exact List.nodup_range _
    have h := outerLoop_pairwise l.enum hnodup l.enum [] (List.Sublist.refl _)
    exact h.imp fun hab => ⟨hab, by rw [← isDuplicate_comm]; exact hab⟩

/-- C6: the Query/Filter Layer keeps exactly the events with magnitude ≥
min_magnitude (inclusive lower bound, so an event at exactly the bound is
kept and one strictly below is excluded), and with the Marmara region
selected additionally requires closed-interval bounding-box containment, so
a point exactly on a box edge is included. -/
theorem C6_filter_boundaries :
    (∀ (df : List Event) (m : ℚ) (e : Event),
      e ∈ filter_data df m Region.tumTurkiye ↔ e ∈ df ∧ m ≤ e.magnitude) ∧
    (∀ (df : List Event) (m : ℚ) (e : Event),
      e ∈ filter_data df m Region.marmaraBolgesi ↔
        e ∈ df ∧ m ≤ e.magnitude ∧
          is_in_marmara_region e.latitude e.longitude = true) ∧
    (∀ lat lon : ℚ, is_in_marmara_region lat lon = true ↔
      ((39.5 : ℚ) ≤ lat ∧ lat ≤ (41.5 : ℚ) ∧ 26 ≤ lon ∧ lon ≤ 31)) := by
  have h1 : MARMARA_BOUNDS_min_lat = (39.5 : ℚ) := by
    rw [MARMARA_BOUNDS_min_lat, Rat.mkRat_eq_div]; norm_num
  have h2 : MARMARA_BOUNDS_max_lat = (41.5 : ℚ) := by
    rw [MARMARA_BOUNDS_max_lat, Rat.mkRat_eq_div]; norm_num
  refine ⟨?_, ?_, ?_⟩
  · intro df m e
    simp [filter_data, List.mem_filter]
  · intro df m e
    simp only [filter_data, List.mem_filter, and_assoc, decide_eq_true_eq]
  · intro lat lon
    simp [is_in_marmara_region, h1, h2, MARMARA_BOUNDS_min_lon,
      MARMARA_BOUNDS_max_lon, and_assoc]

/-- C7: a standardized AFAD record's occurred_at (both the formatted date
and the millisecond timestamp) equals the raw UTC timestamp plus exactly 3
hours, while a parsed Kandilli record's occurred_at is the raw civil
datetime unchanged, with no offset applied. -/
theorem C7_timezone_offsets :
    (∀ (raw : RawAfad) (e : Event), afadStandardizeQuake raw = some e →
      ∃ ds c, raw.date = some ds ∧
        fromisoformat (replaceSub ['Z'] strPlus0000 ds) = some c ∧
        e.timestamp = (epochOfCivil c + 3 * 3600) * 1000 ∧
        e.date = civilOfEpoch (epochOfCivil c + 3 * 3600)) ∧
    (∀ (line : List Char) (e : Event), parseKandilliLine line = some e →
      ∃ c, strptimeYmdHms (replaceChar '.' '-' ((splitWs line).getD 0 []))
          ((splitWs line).getD 1 []) = some c ∧
        e.date = c ∧ e.timestamp = epochOfCivil c * 1000) := by
  constructor
  · intro raw e h
    obtain ⟨ds, c, magv, lat, lon, depth, hds, hc, _, _, _, _, he⟩ :=
      afadStandardizeQuake_inv h
    subst he
    exact ⟨ds, c, hds, hc, rfl, rfl⟩
  · intro line e h
    obtain ⟨lat, lon, depth, md, ml, mw, ts, _, _, _, _, _, _, _, hts, he⟩ :=
      parseKandilliLine_inv h
    subst he
    exact ⟨ts, hts, rfl, rfl⟩

/-- Witness for C7: a concrete AFAD record (08:13:02 UTC, standardized to
11:13:02 local) and a concrete Kandilli line (11:13:02, kept as is). -/
theorem C7_timezone_offsets_witness :
    (∃ ds c, rawAfadGood.date = some ds ∧
      fromisoformat (replaceSub ['Z'] strPlus0000 ds) = some c ∧
      evAfadGood.timestamp = (epochOfCivil c + 3 * 3600) * 1000 ∧
      evAfadGood.date = civilOfEpoch (epochOfCivil c + 3 * 3600)) ∧
    (∃ c, strptimeYmdHms (replaceChar '.' '-' ((splitWs kGoodLine).getD 0 []))
        ((splitWs kGoodLine).getD 1 []) = some c ∧
      evKGood.date = c ∧ evKGood.timestamp = epochOfCivil c * 1000) :=
  ⟨C7_timezone_offsets.1 rawAfadGood evAfadGood (by decide),
   C7_timezone_offsets.2 kGoodLine evKGood (by decide)⟩

/-- A filterMap whose function succeeds on every element preserves length. -/
theorem length_filterMap_of_isSome {α β : Type} (f : α → Option β) :
    ∀ l : List α, (∀ x ∈ l, (f x).isSome) →
      (l.filterMap f).length = l.length := by
  intro l
  induction l with
  | nil => intro _; simp
  | cons a rest ih =>
    intro h
    cases hfa : f a with
    | none =>
      have := h a (List.mem_cons_self ..)
      rw [hfa] at this
      simp at this
    | some b =>
      rw [List.filterMap_cons_some hfa, List.length_cons, List.length_cons,
        ih fun x hx => h x (List.mem_cons_of_mem _ hx)]

/-- C5: a raw batch with one malformed record among records that each
normalize successfully yields exactly the events of the good records — the
malformed one is dropped without aborting its siblings, for both sources. -/
theorem C5_per_record_isolation :
    (∀ (pre post : List (List Char)) (bad : List Char),
      processKandilliLine bad = none →
      (∀ l ∈ pre ++ post, (processKandilliLine l).isSome) →
      (parse_kandilli_data (pre ++ bad :: post)).length =
        pre.length + post.length) ∧
    (∀ (pre post : List RawAfad) (bad : RawAfad),
      afadStandardizeQuake bad = none →
      (∀ r ∈ pre ++ post, (afadStandardizeQuake r).isSome) →
      (standardize_afad_data (pre ++ bad :: post)).length =
        pre.length + post.length) := by
  constructor
  · intro pre post bad hbad hgood
    rw [parse_kandilli_data, sortByTimestampDesc, List.length_mergeSort,
      List.filterMap_append, List.filterMap_cons_none hbad,
      List.length_append,
      length_filterMap_of_isSome _ pre
        (fun x hx => hgood x (List.mem_append_left _ hx)),
      length_filterMap_of_isSome _ post
        (fun x hx => hgood x (List.mem_append_right _ hx))]
  · intro pre post bad hbad hgood
    rw [standardize_afad_data, sortByTimestampDesc, List.length_mergeSort,
      List.filterMap_append, List.filterMap_cons_none hbad,
      List.length_append,
      length_filterMap_of_isSome _ pre
        (fun x hx => hgood x (List.mem_append_left _ hx)),
      length_filterMap_of_isSome _ post
        (fun x hx => hgood x (List.mem_append_right _ hx))]

/-- Witness for C5: two good Kandilli lines around a line with an
unparseable latitude, and two good AFAD records around one with an
unparseable date. -/
theorem C5_per_record_isolation_witness :
    (parse_kandilli_data [kGoodLine, kBadLine, kGoodLine2]).length = 2 ∧
    (standardize_afad_data [rawAfadGood, rawAfadBad, rawAfadGood2]).length =
      2 := by
  constructor
  · have h := C5_per_record_isolation.1 [kGoodLine] [kGoodLine2] kBadLine
      (by decide) (by decide)
    simpa using h
  · have h := C5_per_record_isolation.2 [rawAfadGood] [rawAfadGood2]
      rawAfadBad (by decide) (by decide)
    simpa using h

/-- C4 as stated fails on the code: a Kandilli line with no parseable
magnitude value present (all three magnitude columns hold the placeholder)
is not dropped — the normalizer still emits a record, with magnitude 0. -/
theorem C4_no_magnitude_counterexample :
    parseFloat ((splitWs kNoMagLine).getD 5 []) = none ∧
    parseFloat ((splitWs kNoMagLine).getD 6 []) = none ∧
    parseFloat ((splitWs kNoMagLine).getD 7 []) = none ∧
    (parseKandilliLine kNoMagLine).isSome = true ∧
    (parseKandilliLine kNoMagLine).map Event.magnitude = some 0 := by
  decide

/-- C4 (amended): every record leaving either normalizer carries concrete
occurred_at, latitude, longitude, depth, magnitude and source values, all
established from successful parses of the raw record, so a record whose
timestamp, latitude, longitude or depth cannot be parsed is dropped; but a
record with no parseable magnitude value present is not dropped — it is
emitted with default magnitude 0 (Kandilli with all placeholder columns,
AFAD with a missing magnitude key). -/
theorem C4_required_fields :
    (∀ (line : List Char) (e : Event), parseKandilliLine line = some e →
      9 ≤ (splitWs line).length ∧
      parseFloat ((splitWs line).getD 2 []) = some e.latitude ∧
      parseFloat ((splitWs line).getD 3 []) = some e.longitude ∧
      parseFloat ((splitWs line).getD 4 []) = some e.depth ∧
      strptimeYmdHms (replaceChar '.' '-' ((splitWs line).getD 0 []))
        ((splitWs line).getD 1 []) = some e.date ∧
      (∃ md ml mw, parseMagColumn ((splitWs line).getD 5 []) = some md ∧
        parseMagColumn ((splitWs line).getD 6 []) = some ml ∧
        parseMagColumn ((splitWs line).getD 7 []) = some mw ∧
        e.magnitude = ((ml.orElse fun _ => mw.orElse fun _ => md).getD 0)) ∧
      e.source = strKandilli) ∧
    (∀ (raw : RawAfad) (e : Event), afadStandardizeQuake raw = some e →
      (∃ ds c, raw.date = some ds ∧
        fromisoformat (replaceSub ['Z'] strPlus0000 ds) = some c ∧
        e.date = civilOfEpoch (epochOfCivil c + 3 * 3600)) ∧
      afadMagValue raw.magnitude = some e.magnitude ∧
      (∃ s, raw.latitude = some s ∧ parseFloat s = some e.latitude) ∧
      (∃ s, raw.longitude = some s ∧ parseFloat s = some e.longitude) ∧
      (∃ s, raw.depth = some s ∧ parseFloat s = some e.depth) ∧
      e.source = strAFAD) ∧
    (∀ line : List Char,
      parseMagColumn ((splitWs line).getD 5 []) = none ∨
      parseMagColumn ((splitWs line).getD 6 []) = none ∨
      parseMagColumn ((splitWs line).getD 7 []) = none →
      parseKandilliLine line = none) ∧
    (∀ raw : RawAfad, afadMagValue raw.magnitude = none →
      afadStandardizeQuake raw = none) ∧
    (∀ raw : RawAfad,
      raw.date = none ∨ (∃ ds, raw.date = some ds ∧
        fromisoformat (replaceSub ['Z'] strPlus0000 ds) = none) →
      afadStandardizeQuake raw = none) ∧
    (parseKandilliLine kNoMagLine).map Event.magnitude = some 0 ∧
    (afadStandardizeQuake rawAfadNoMag).map Event.magnitude = some 0 := by
  refine ⟨?_, ?_, ?_, ?_, ?_, by decide, by decide⟩
  · intro line e h
    obtain ⟨lat, lon, depth, md, ml, mw, ts, h9, hlat, hlon, hdepth, hmd,
      hml, hmw, hts, he⟩ := parseKandilliLine_inv h
    subst he
    exact ⟨h9, hlat, hlon, hdepth, hts, ⟨md, ml, mw, hmd, hml, hmw, rfl⟩,
      rfl⟩
  · intro raw e h
    obtain ⟨ds, c, magv, lat, lon, depth, hds, hc, hm, hlat, hlon, hdepth,
      he⟩ := afadStandardizeQuake_inv h
    subst he
    exact ⟨⟨ds, c, hds, hc, rfl⟩, hm, hlat, hlon, hdepth, rfl⟩
  · intro line h
    cases hp : parseKandilliLine line with
    | none => rfl
    | some e =>
      obtain ⟨lat, lon, depth, md, ml, mw, ts, _, _, _, _, hmd, hml, hmw, _,
        _⟩ := parseKandilliLine_inv hp
      rcases h with h | h | h
      · rw [h] at hmd; exact Option.noConfusion hmd
      · rw [h] at hml; exact Option.noConfusion hml
      · rw [h] at hmw; exact Option.noConfusion hmw
  · intro raw h
    cases hp : afadStandardizeQuake raw with
    | none => rfl
    | some e =>
      obtain ⟨ds, c, magv, lat, lon, depth, hds, hc, hm, _, _, _, _⟩ :=
        afadStandardizeQuake_inv hp
      rw [h] at hm
      exact Option.noConfusion hm
  · intro raw h
    cases hp : afadStandardizeQuake raw with
    | none => rfl
    | some e =>
      obtain ⟨ds, c, magv, lat, lon, depth, hds, hc, hm, _, _, _, _⟩ :=
        afadStandardizeQuake_inv hp
      rcases h with h | ⟨ds2, hds2, hiso⟩
      · rw [h] at hds
        exact Option.noConfusion hds
      · rw [hds2] at hds
        injection hds with hds
        rw [hds] at hiso
        rw [hiso] at hc
        exact Option.noConfusion hc

/-- Witness for C4 (amended): a good line and record exercising the positive
clauses, and three malformed records (unconvertible present magnitude for
both sources, unparseable AFAD date) exercising the drop clauses. -/
theorem C4_required_fields_witness :
    9 ≤ (splitWs kGoodLine).length ∧
    (∃ ds c, rawAfadGood.date = some ds ∧
      fromisoformat (replaceSub ['Z'] strPlus0000 ds) = some c ∧
      evAfadGood.date = civilOfEpoch (epochOfCivil c + 3 * 3600)) ∧
    parseKandilliLine kBadMagLine = none ∧
    afadStandardizeQuake rawAfadBadMag = none ∧
    afadStandardizeQuake rawAfadBad = none :=
  ⟨(C4_required_fields.1 kGoodLine evKGood (by decide)).1,
   (C4_required_fields.2.1 rawAfadGood evAfadGood (by decide)).1,
   C4_required_fields.2.2.1 kBadMagLine (by decide),
   C4_required_fields.2.2.2.1 rawAfadBadMag (by decide),
   C4_required_fields.2.2.2.2.1 rawAfadBad
     (Or.inr ⟨"not-a-date".toList, by decide, by decide⟩)⟩

/-- C8 as stated fails on the code: a Kandilli line reporting both an ML and
an MW magnitude yields a record whose magnitude_detail mapping has two
non-null entries, not at most one. -/
theorem C8_two_details_counterexample :
    (parseKandilliLine kTwoMagLine).map
      (fun e => e.magnitude_details.nonNullCount) = some 2 := by
  decide

/-- C8 (amended): AFAD records have at most one non-null magnitude_detail
entry, and any non-null entry agrees with the selected primary magnitude and
magnitude type; Kandilli records preserve every parsed magnitude column, so
several entries may be non-null, and the primary magnitude and type follow
the ML > MW > MD preference over the details (magnitude 0 and type MD when
all three are null). -/
theorem C8_magnitude_detail_consistency :
    (∀ (raw : RawAfad) (e : Event), afadStandardizeQuake raw = some e →
      e.magnitude_details.nonNullCount ≤ 1 ∧
      (∀ v, e.magnitude_details.md = some v →
        e.magType = strMD ∧ e.magnitude = v) ∧
      (∀ v, e.magnitude_details.ml = some v →
        e.magType = strML ∧ e.magnitude = v) ∧
      (∀ v, e.magnitude_details.mw = some v →
        e.magType = strMW ∧ e.magnitude = v)) ∧
    (∀ (line : List Char) (e : Event), parseKandilliLine line = some e →
      (match e.magnitude_details.ml, e.magnitude_details.mw,
          e.magnitude_details.md with
        | some v, _, _ => e.magType = strML ∧ e.magnitude = v
        | none, some v, _ => e.magType = strMW ∧ e.magnitude = v
        | none, none, some v => e.magType = strMD ∧ e.magnitude = v
        | none, none, none => e.magType = strMD ∧ e.magnitude = 0)) := by
  constructor
  · intro raw e h
    obtain ⟨ds, c, magv, lat, lon, depth, _, _, _, _, _, _, he⟩ :=
      afadStandardizeQuake_inv h
    subst he
    refine ⟨?_, fun v hv => ?_, fun v hv => ?_, fun v hv => ?_⟩
    · by_cases hd : raw.magType.getD strML = strMD <;>
        by_cases hl : raw.magType.getD strML = strML <;>
        by_cases hw : raw.magType.getD strML = strMW <;>
        simp [MagnitudeDetails.nonNullCount, hd, hl, hw] <;>
        decide
    · dsimp only at hv
      split at hv
      · rename_i hcond
        injection hv with hv
        exact ⟨hcond, hv⟩
      · exact absurd hv (by simp)
    · dsimp only at hv
      split at hv
      · rename_i hcond
        injection hv with hv
        exact ⟨hcond, hv⟩
      · exact absurd hv (by simp)
    · dsimp only at hv
      split at hv
      · rename_i hcond
        injection hv with hv
        exact ⟨hcond, hv⟩
      · exact absurd hv (by simp)
  · intro line e h
    obtain ⟨lat, lon, depth, md, ml, mw, ts, _, _, _, _, _, _, _, _, he⟩ :=
      parseKandilliLine_inv h
    subst he
    cases ml <;> cases mw <;> cases md <;>
      simp [Option.orElse]

/-- Witness for C8 (amended): the concrete AFAD and Kandilli records. -/
theorem C8_magnitude_detail_consistency_witness :
    evAfadGood.magnitude_details.nonNullCount ≤ 1 ∧
    (match evKGood.magnitude_details.ml, evKGood.magnitude_details.mw,
        evKGood.magnitude_details.md with
      | some v, _, _ => evKGood.magType = strML ∧ evKGood.magnitude = v
      | none, some v, _ => evKGood.magType = strMW ∧ evKGood.magnitude = v
      | none, none, some v => evKGood.magType = strMD ∧ evKGood.magnitude = v
      | none, none, none => evKGood.magType = strMD ∧ evKGood.magnitude = 0) :=
  ⟨(C8_magnitude_detail_consistency.1 rawAfadGood evAfadGood (by decide)).1,
   C8_magnitude_detail_consistency.2 kGoodLine evKGood (by decide)⟩

end Deprem
